import Mathlib

/-!
Verification development for the `rss_article_collector` repository
(`rss_collector.py` and `csv_rss_collector.py`).

Python strings are modelled as `List Char` (one element per code point,
matching Python's `len`/slicing semantics).  Pure helper functions are
translated directly from the source; external library calls
(`trafilatura`, `goose3`, `BeautifulSoup` selector matching, `hashlib`,
the network, `feedparser`'s raw entry dictionaries) are modelled as
inputs to the translated code, since their internals are not part of
this repository.
-/

namespace RssCollector

/-- Python strings, one `Char` per code point. -/
abbrev Str := List Char

/-- Python `s.split(c, 1)[0]` for a one-character separator `c`: the part of
`s` strictly before the first occurrence of `c` (all of `s` if absent). -/
def pySplitHead (c : Char) (s : Str) : Str :=
  s.takeWhile (fun a => a != c)

/-- Python `s.rstrip(c)` for a one-character set `c`: removes every trailing
occurrence of `c`. -/
def pyRstripChar (c : Char) (s : Str) : Str :=
  (s.reverse.dropWhile (fun a => a == c)).reverse

/-- `canonicalize_url` from `rss_collector.py` line 79-80 and
`csv_rss_collector.py` line 32-33:
`url.split("#", 1)[0].split("?", 1)[0].rstrip("/")`. -/
def canonicalize_url (url : Str) : Str :=
  pyRstripChar '/' (pySplitHead '?' (pySplitHead '#' url))

/-- Spec-worded primitive: everything of `s` strictly before the first
occurrence of `c` ("removes everything from the first `c`"). -/
def cutAt (c : Char) : Str → Str
  | [] => []
  | a :: rest => if a = c then [] else a :: cutAt c rest

/-- Spec-worded primitive: removes every trailing occurrence of `c`
(the whole trailing run of `c` characters). -/
def dropTrailing (c : Char) : Str → Str
  | [] => []
  | a :: rest =>
    let r := dropTrailing c rest
    if r = [] ∧ a = c then [] else a :: r

/-- Spec-worded primitive for the claim as literally stated: removes a
single trailing occurrence of `c` (at most one character). -/
def dropOneTrailing (c : Char) (s : Str) : Str :=
  if s.getLast? = some c then s.dropLast else s

/-- The canonicalizer as the claim literally words it: strip the fragment,
strip the query string, then strip a SINGLE trailing slash. -/
def canonSpecSingle (s : Str) : Str :=
  dropOneTrailing '/' (cutAt '?' (cutAt '#' s))

/-- The canonicalizer as amended: strip the fragment, strip the query
string, then strip ALL trailing slashes. -/
def canonSpecAll (s : Str) : Str :=
  dropTrailing '/' (cutAt '?' (cutAt '#' s))

-- Basic lemmas relating the Python primitives to the spec-worded ones.

theorem pySplitHead_eq_cutAt (c : Char) (s : Str) : pySplitHead c s = cutAt c s := by
  induction s with
  | nil => rfl
  | cons a rest ih =>
    by_cases h : a = c
    · simp [pySplitHead, cutAt, h, List.takeWhile]
    · have hb : (a != c) = true := by simp [h]
      simp only [pySplitHead, cutAt, List.takeWhile, hb, if_neg h]
      exact congrArg (a :: ·) ih

theorem pyRstripChar_snoc (c a : Char) (s : Str) :
    pyRstripChar c (s ++ [a]) = if a = c then pyRstripChar c s else s ++ [a] := by
  by_cases h : a = c
  · simp [pyRstripChar, h, List.dropWhile]
  · simp [pyRstripChar, h, List.dropWhile]

theorem dropTrailing_snoc (c a : Char) (s : Str) :
    dropTrailing c (s ++ [a]) = if a = c then dropTrailing c s else s ++ [a] := by
  induction s with
  | nil =>
    by_cases h : a = c <;> simp [dropTrailing, h]
  | cons b rest ih =>
    by_cases h : a = c
    · simp only [List.cons_append, dropTrailing, List.append_eq, ih, if_pos h]
    · simp only [List.cons_append, dropTrailing, List.append_eq, ih, if_neg h]
      have hne : rest ++ [a] ≠ [] := by simp
      simp [hne]

theorem pyRstripChar_eq_dropTrailing (c : Char) (s : Str) :
    pyRstripChar c s = dropTrailing c s := by
  induction s using List.reverseRecOn with
  | nil => rfl
  | append_singleton rest a ih =>
    rw [pyRstripChar_snoc, dropTrailing_snoc, ih]

theorem mem_cutAt {x c : Char} {s : Str} (h : x ∈ cutAt c s) : x ∈ s := by
  induction s with
  | nil => simpa [cutAt] using h
  | cons a rest ih =>
    by_cases hac : a = c
    · simp [cutAt, hac] at h
    · simp only [cutAt, if_neg hac, List.mem_cons] at h
      rcases h with h | h
      · exact h ▸ List.mem_cons_self _ _
      · exact List.mem_cons_of_mem _ (ih h)

theorem not_mem_cutAt (c : Char) (s : Str) : c ∉ cutAt c s := by
  induction s with
  | nil => simp [cutAt]
  | cons a rest ih =>
    by_cases hac : a = c
    · simp [cutAt, hac]
    · simp only [cutAt, if_neg hac, List.mem_cons, not_or]
      exact ⟨fun h => hac h.symm, ih⟩

theorem cutAt_of_not_mem {c : Char} {s : Str} (h : c ∉ s) : cutAt c s = s := by
  induction s with
  | nil => rfl
  | cons a rest ih =>
    simp only [List.mem_cons, not_or] at h
    have hne : ¬ a = c := fun hac => h.1 hac.symm
    simp only [cutAt, if_neg hne]
    rw [ih h.2]

theorem mem_dropTrailing {x c : Char} {s : Str} (h : x ∈ dropTrailing c s) : x ∈ s := by
  induction s with
  | nil => simpa [dropTrailing] using h
  | cons a rest ih =>
    simp only [dropTrailing] at h
    by_cases hc : dropTrailing c rest = [] ∧ a = c
    · simp [hc] at h
    · simp only [if_neg hc, List.mem_cons] at h
      rcases h with h | h
      · exact h ▸ List.mem_cons_self _ _
      · exact List.mem_cons_of_mem _ (ih h)

theorem dropTrailing_idem (c : Char) (s : Str) :
    dropTrailing c (dropTrailing c s) = dropTrailing c s := by
  induction s with
  | nil => rfl
  | cons a rest ih =>
    by_cases hc : dropTrailing c rest = [] ∧ a = c
    · simp [dropTrailing, hc]
    · have h1 : dropTrailing c (a :: rest) = a :: dropTrailing c rest := by
        simp only [dropTrailing]
        rw [if_neg hc]
      have h2 : dropTrailing c (a :: dropTrailing c rest) = a :: dropTrailing c rest := by
        simp only [dropTrailing, ih]
        rw [if_neg hc]
      rw [h1, h2]

/-- Claim C2 (counterexample): on input `"a//"` the code yields `"a"`,
stripping BOTH trailing slashes, while the claim as stated (strip a
single trailing `'/'`) predicts `"a/"`. -/
theorem canonicalize_url_single_slash_counterexample :
    canonicalize_url ['a', '/', '/'] = ['a'] ∧
      canonSpecSingle ['a', '/', '/'] = ['a', '/'] ∧
      (['a'] : Str) ≠ ['a', '/'] := by
  refine ⟨by decide, by decide, by decide⟩

theorem canonicalize_url_eq_spec (url : Str) :
    canonicalize_url url = canonSpecAll url := by
  unfold canonicalize_url canonSpecAll
  rw [pySplitHead_eq_cutAt, pySplitHead_eq_cutAt, pyRstripChar_eq_dropTrailing]

/-- Claim C2 (amended): `canonicalize_url` removes everything from the
first `'#'`, then everything from the first `'?'`, then strips ALL
trailing `'/'` characters (not just one), preserving the remaining
characters exactly; it is a pure total function (no percent-decoding,
no case-folding, no exceptions). -/
theorem canonicalize_url_normalization (url : Str) :
    canonicalize_url url = canonSpecAll url :=
  canonicalize_url_eq_spec url

/-- Claim C10: `canonicalize_url` is idempotent — re-canonicalizing a
canonical URL never changes it. -/
theorem canonicalize_url_idempotent (url : Str) :
    canonicalize_url (canonicalize_url url) = canonicalize_url url := by
  rw [canonicalize_url_eq_spec, canonicalize_url_eq_spec]
  unfold canonSpecAll
  have hhash : '#' ∉ dropTrailing '/' (cutAt '?' (cutAt '#' url)) := by
    intro h
    exact not_mem_cutAt '#' url (mem_cutAt (mem_dropTrailing h))
  have hq : '?' ∉ dropTrailing '/' (cutAt '?' (cutAt '#' url)) := by
    intro h
    exact not_mem_cutAt '?' (cutAt '#' url) (mem_dropTrailing h)
  rw [cutAt_of_not_mem hhash, cutAt_of_not_mem hq, dropTrailing_idem]

/-! ## Text cleanup helpers translated from the collector sources -/

/-- Python's `\s` character class restricted to the ASCII whitespace the
feeds actually contain (space, tab, newline, carriage return, vertical
tab, form feed). -/
def isPySpace (c : Char) : Bool :=
  c == ' ' || c == '\t' || c == '\n' || c == '\r' || c == '\x0b' || c == '\x0c'

/-- Worker for `re.sub(r"\s+", " ", s)`: replaces every maximal run of
whitespace by a single space.  The flag records whether the previous
character already belonged to a whitespace run. -/
def collapseWsAux : Bool → Str → Str
  | _, [] => []
  | prevSpace, a :: rest =>
    if isPySpace a then
      if prevSpace then collapseWsAux true rest
      else ' ' :: collapseWsAux true rest
    else a :: collapseWsAux false rest

/-- `re.sub(r"\s+", " ", s)`. -/
def collapseWs (s : Str) : Str := collapseWsAux false s

/-- Python `s.strip()`: removes leading and trailing whitespace. -/
def pyStrip (s : Str) : Str :=
  ((s.dropWhile isPySpace).reverse.dropWhile isPySpace).reverse

/-- `re.sub(r"\s+", " ", s).strip()`, the normalization applied to every
extracted body in both collector variants. -/
def normText (s : Str) : Str := pyStrip (collapseWs s)

/-- `guess_lead` from `rss_collector.py` lines 82-84 /
`csv_rss_collector.py` lines 35-37 with the default `max_len = 240`:
collapse whitespace, strip, cut to 240 characters and append an
ellipsis when the text was longer. -/
def guess_lead (t : Str) : Str :=
  let x := normText t
  x.take 240 ++ (if 240 < x.length then ['…'] else [])

/-- Character class `[a-zA-Z0-9._%+-]` (local part of the e-mail regex in
`csv_rss_collector.py` line 126). -/
def isEmailLocalChar (c : Char) : Bool :=
  c.isAlpha || c.isDigit || c == '.' || c == '_' || c == '%' || c == '+' || c == '-'

/-- Character class `[a-zA-Z0-9.-]` (domain part of the e-mail regex). -/
def isEmailDomainChar (c : Char) : Bool :=
  c.isAlpha || c.isDigit || c == '.' || c == '-'


/-- `re.sub(r"\([^)]+기자\)", "", s)` (`csv_rss_collector.py` line 125):
removes every parenthesized byline.  A match is `'('`, at least one
non-`')'` character, the two characters 기자, and `')'`; since `[^)]+`
cannot cross a `')'`, the closing `')'` of a match necessarily is the
first `')'` after its `'('`. -/
def removeByline : Str → Str
  | [] => []
  | a :: rest =>
    if a = '(' ∧ (rest.drop ((rest.takeWhile (fun c => c != ')')).length)).head? = some ')'
        ∧ 3 ≤ (rest.takeWhile (fun c => c != ')')).length
        ∧ (rest.takeWhile (fun c => c != ')')).reverse.take 2 = ['자', '기'] then
      removeByline (rest.drop ((rest.takeWhile (fun c => c != ')')).length + 1))
    else a :: removeByline rest
  termination_by s => s.length
  decreasing_by
    · simp only [List.length_cons, List.length_drop]
      omega
    · simp only [List.length_cons]
      omega

/-- `re.sub(r"[a-zA-Z0-9._%+-]+@[a-zA-Z0-9.-]+", "", s)`
(`csv_rss_collector.py` line 126): removes every e-mail-shaped token.
A match starts at a (leftmost) maximal run of local-part characters
immediately followed by `'@'` and a non-empty run of domain
characters. -/
def removeEmails : Str → Str
  | [] => []
  | a :: rest =>
    if hA : isEmailLocalChar a then
      match hAfter : (a :: rest).drop (((a :: rest).takeWhile isEmailLocalChar).length) with
      | '@' :: tail =>
        if (tail.takeWhile isEmailDomainChar) = [] then
          ((a :: rest).takeWhile isEmailLocalChar) ++ '@' :: removeEmails tail
        else removeEmails (tail.drop (tail.takeWhile isEmailDomainChar).length)
      | other => ((a :: rest).takeWhile isEmailLocalChar) ++ removeEmails other
    else a :: removeEmails rest
  termination_by s => s.length
  decreasing_by
    · have hrun : 1 ≤ ((a :: rest).takeWhile isEmailLocalChar).length := by
        simp [List.takeWhile_cons, hA]
      have hlen := congrArg List.length hAfter
      simp only [List.length_drop, List.length_cons] at hlen ⊢
      omega
    · have hrun : 1 ≤ ((a :: rest).takeWhile isEmailLocalChar).length := by
        simp [List.takeWhile_cons, hA]
      have hlen := congrArg List.length hAfter
      simp only [List.length_drop, List.length_cons] at hlen ⊢
      omega
    · have hrun : 1 ≤ ((a :: rest).takeWhile isEmailLocalChar).length := by
        simp [List.takeWhile_cons, hA]
      have hlen := congrArg List.length hAfter
      simp only [List.length_drop, List.length_cons] at hlen ⊢
      omega
    · simp only [List.length_cons]
      omega

/-- The marker phrase `무단 전재` of the boilerplate-stripping regex. -/
def danjae : Str := ['무', '단', ' ', '전', '재']

/-- `re.sub(r"무단 전재.*", "", s)` (`csv_rss_collector.py` line 127):
at every occurrence of the marker phrase, removes the marker and
everything after it up to the next newline (`.` does not cross a
newline).  The matched region starting at the current character is
dropped by skipping to the next newline; this is exact for a marker
that does not itself contain a newline, which holds for the one marker
used (`무단 전재`).  The text reaching this cleanup has had all
whitespace collapsed to single spaces already, so in practice this
truncates at the first marker. -/
def removeTailNotice (m : Str) : Str → Str
  | [] => []
  | a :: rest =>
    if m.isPrefixOf (a :: rest) ∧ m ≠ [] then
      removeTailNotice m (rest.dropWhile (fun c => c != '\n'))
    else a :: removeTailNotice m rest
  termination_by s => s.length
  decreasing_by
    · have hd : (rest.dropWhile (fun c => c != '\n')).length ≤ rest.length :=
        (List.dropWhile_suffix _).sublist.length_le
      simp only [List.length_cons]
      omega
    · simp only [List.length_cons]
      omega

/-! ## The extraction chain

The chain logic of `extract_body` is repository code; the extractor
libraries it drives (`trafilatura`, `goose3`, `BeautifulSoup` selector
matching) are external, so their per-call results are inputs of the
model.  The `try`/`except` wrapped around each strategy is modelled by
an explicit `error` outcome. -/

/-- Outcome of one strategy's external library call: the call raised an
exception (caught by the chain's `try`/`except`) or returned a value. -/
inductive StratOutcome (α : Type) where
  | error : StratOutcome α
  | ok : α → StratOutcome α
deriving DecidableEq

/-- Fields read from the JSON document produced by `trafilatura.extract`
(`data.get("text")`, `data.get("title")`); `none` is an absent field.
A falsy `json_str` (`None` or `""`) is modelled as chain input
`.ok none`. -/
structure TrafData where
  text : Option Str
  title : Option Str
deriving DecidableEq

/-- Fields read from the `goose3` article object
(`article.cleaned_text`, `article.title`). -/
structure GooseData where
  cleaned_text : Option Str
  title : Option Str
deriving DecidableEq

/-- Result of the outlet-specific (연합뉴스) `BeautifulSoup` selector in
`csv_rss_collector.py`: the text of the matched `div.story-news.article`
(`body_div.get_text(" ", strip=True)`) and the optional `h1` title. -/
structure YnaData where
  text : Str
  title : Option Str
deriving DecidableEq

/-- Strategy 2 of `rss_collector.py`'s `extract_body` (lines 159-166):
`goose3` with the `len(cleaned_text.strip()) > 200` acceptance test. -/
def gooseStep200 (goo : StratOutcome GooseData) : Option Str × Option Str :=
  match goo with
  | .ok g =>
    match g.cleaned_text with
    | some t =>
      if t ≠ [] ∧ 200 < (pyStrip t).length then (g.title, some (normText t))
      else (none, none)
    | none => (none, none)
  | .error => (none, none)

/-- `extract_body` from `rss_collector.py` lines 145-168: try
`trafilatura` (accepted when the stripped text is longer than 200
characters), fall through to `goose3` (same test), else
`(None, None)`. -/
def extract_body (traf : StratOutcome (Option TrafData)) (goo : StratOutcome GooseData) :
    Option Str × Option Str :=
  match traf with
  | .ok (some d) =>
    match d.text with
    | some t =>
      if t ≠ [] ∧ 200 < (pyStrip t).length then (d.title, some (normText t))
      else gooseStep200 goo
    | none => gooseStep200 goo
  | _ => gooseStep200 goo

/-- `MAX_BODY_CHARS` of `csv_rss_collector.py` line 16. -/
def MAX_BODY_CHARS_CSV : Nat := 10000

/-- The cleanup applied to the 연합뉴스 `div` text
(`csv_rss_collector.py` lines 124-127): collapse whitespace and strip,
remove bylines, remove e-mail addresses, truncate at the
boilerplate marker. -/
def ynaClean (t : Str) : Str :=
  removeTailNotice danjae (removeEmails (removeByline (normText t)))

/-- Strategy 3 of `csv_rss_collector.py`'s `extract_body` (lines
147-154): `goose3`, accepted whenever `cleaned_text` is truthy (no
length threshold). -/
def csvGooseStep (goo : StratOutcome GooseData) : Option Str × Option Str :=
  match goo with
  | .ok g =>
    match g.cleaned_text with
    | some t =>
      if t ≠ [] then (g.title, some ((normText t).take MAX_BODY_CHARS_CSV))
      else (none, none)
    | none => (none, none)
  | .error => (none, none)

/-- Strategies 2-3 of `csv_rss_collector.py`'s `extract_body` (lines
134-154): `trafilatura`, accepted whenever its raw `text` field is
truthy (no length threshold), then `goose3`. -/
def csvTrafStep (traf : StratOutcome (Option TrafData)) (goo : StratOutcome GooseData) :
    Option Str × Option Str :=
  match traf with
  | .ok (some d) =>
    match d.text with
    | some t =>
      if t ≠ [] then (d.title, some ((normText t).take MAX_BODY_CHARS_CSV))
      else csvGooseStep goo
    | none => csvGooseStep goo
  | _ => csvGooseStep goo

/-- `extract_body` from `csv_rss_collector.py` lines 117-156: the
outlet-specific 연합뉴스 parser first — whose result is returned whenever
the selector matched, with no check on the cleaned text at all — then
`trafilatura`, then `goose3`, else `(None, None)`. -/
def extract_body_csv (yna : StratOutcome (Option YnaData))
    (traf : StratOutcome (Option TrafData)) (goo : StratOutcome GooseData) :
    Option Str × Option Str :=
  match yna with
  | .ok (some d) => (d.title, some ((ynaClean d.text).take MAX_BODY_CHARS_CSV))
  | _ => csvTrafStep traf goo

/-- Does `trafilatura`'s outcome pass `rss_collector.py`'s acceptance
test `text and len(text.strip()) > 200`? -/
def trafHasResult (traf : StratOutcome (Option TrafData)) : Bool :=
  match traf with
  | .ok (some d) =>
    match d.text with
    | some t => !t.isEmpty && decide (200 < (pyStrip t).length)
    | none => false
  | _ => false

/-- Does `goose3`'s outcome pass `rss_collector.py`'s acceptance test
`cleaned_text and len(cleaned_text.strip()) > 200`? -/
def gooseHasResult (goo : StratOutcome GooseData) : Bool :=
  match goo with
  | .ok g =>
    match g.cleaned_text with
    | some t => !t.isEmpty && decide (200 < (pyStrip t).length)
    | none => false
  | _ => false

-- Non-space characters survive whitespace normalization.

theorem mem_dropWhile_of_not (p : Char → Bool) {s : Str} {x : Char}
    (hx : x ∈ s) (hpx : p x = false) : x ∈ s.dropWhile p := by
  induction s with
  | nil => simp at hx
  | cons a rest ih =>
    by_cases hpa : p a
    · have hxr : x ∈ rest := by
        rcases List.mem_cons.mp hx with h | h
        · subst h; rw [hpx] at hpa; exact absurd hpa (by simp)
        · exact h
      simpa [List.dropWhile_cons, hpa] using ih hxr
    · simpa [List.dropWhile_cons, hpa] using hx

theorem pyStrip_ne_nil_iff {s : Str} :
    pyStrip s ≠ [] ↔ ∃ x ∈ s, isPySpace x = false := by
  constructor
  · intro h
    unfold pyStrip at h
    rw [ne_eq, List.reverse_eq_nil_iff, List.dropWhile_eq_nil_iff] at h
    push_neg at h
    rcases h with ⟨x, hx, hpx⟩
    refine ⟨x, ?_, by simpa using hpx⟩
    have hx1 : x ∈ s.dropWhile isPySpace := List.mem_reverse.mp hx
    exact (List.dropWhile_suffix isPySpace).sublist.mem hx1
  · rintro ⟨x, hx, hpx⟩
    have h1 : x ∈ s.dropWhile isPySpace := mem_dropWhile_of_not _ hx hpx
    have h2 : x ∈ (s.dropWhile isPySpace).reverse := List.mem_reverse.mpr h1
    have h3 : x ∈ (s.dropWhile isPySpace).reverse.dropWhile isPySpace :=
      mem_dropWhile_of_not _ h2 hpx
    intro hnil
    unfold pyStrip at hnil
    rw [List.reverse_eq_nil_iff] at hnil
    rw [hnil] at h3
    simp at h3

theorem mem_collapseWsAux {s : Str} {x : Char}
    (hx : x ∈ s) (hpx : isPySpace x = false) (b : Bool) : x ∈ collapseWsAux b s := by
  induction s generalizing b with
  | nil => simp at hx
  | cons a rest ih =>
    by_cases hpa : isPySpace a
    · have hxr : x ∈ rest := by
        rcases List.mem_cons.mp hx with h | h
        · subst h; rw [hpx] at hpa; exact absurd hpa (by simp)
        · exact h
      cases b with
      | true => simpa [collapseWsAux, hpa] using ih hxr true
      | false =>
        simp only [collapseWsAux, if_pos hpa, if_neg (by simp : ¬ (false = true))]
        exact List.mem_cons_of_mem _ (ih hxr true)
    · simp only [collapseWsAux, if_neg hpa]
      rcases List.mem_cons.mp hx with h | h
      · exact h ▸ List.mem_cons_self _ _
      · exact List.mem_cons_of_mem _ (ih h false)

theorem normText_ne_nil {t : Str} (h : 200 < (pyStrip t).length) : normText t ≠ [] := by
  have h0 : pyStrip t ≠ [] := by
    intro hnil
    rw [hnil] at h
    simp at h
  rcases pyStrip_ne_nil_iff.mp h0 with ⟨x, hx, hpx⟩
  exact pyStrip_ne_nil_iff.mpr ⟨x, mem_collapseWsAux hx hpx false, hpx⟩


/-- Claim C3 (counterexample): in the CSV variant, when the 연합뉴스
selector matches a `div` whose cleaned text is empty (e.g. the page
contains `<div class="story-news article"></div>`), the chain returns
that empty body immediately instead of falling through and, with the
generic strategies yielding nothing, instead of `(None, None)` as the
claim requires for a body at or below any length threshold. -/
theorem extraction_chain_counterexample :
    extract_body_csv (.ok (some ⟨[], none⟩)) (.ok none) (.ok ⟨none, none⟩)
        = (none, some []) ∧
      ((none, some []) : Option Str × Option Str) ≠ (none, none) := by
  constructor
  · show ((none : Option Str), some ((ynaClean []).take MAX_BODY_CHARS_CSV)) = (none, some [])
    have h1 : normText [] = [] := rfl
    have h2 : ynaClean [] = [] := by
      unfold ynaClean
      rw [h1]
      rw [removeByline, removeEmails, removeTailNotice]
    rw [h2]
    rfl
  · decide

-- Unfolding equations for the chains at fully destructured inputs
-- (these hold by iota reduction).

theorem extract_body_traf_text (t : Str) (title : Option Str) (goo : StratOutcome GooseData) :
    extract_body (.ok (some ⟨some t, title⟩)) goo =
      if t ≠ [] ∧ 200 < (pyStrip t).length then (title, some (normText t))
      else gooseStep200 goo := rfl

theorem gooseStep200_text (t : Str) (title : Option Str) :
    gooseStep200 (.ok ⟨some t, title⟩) =
      if t ≠ [] ∧ 200 < (pyStrip t).length then (title, some (normText t))
      else (none, none) := rfl

theorem csvTrafStep_text (t : Str) (title : Option Str) (goo : StratOutcome GooseData) :
    csvTrafStep (.ok (some ⟨some t, title⟩)) goo =
      if t ≠ [] then (title, some ((normText t).take MAX_BODY_CHARS_CSV))
      else csvGooseStep goo := rfl

theorem pyStrip_long_ne_nil {t : Str} (h : 200 < (pyStrip t).length) : t ≠ [] := by
  intro hnil
  subst hnil
  exact absurd h (by decide)

theorem extract_body_fallthrough (traf : StratOutcome (Option TrafData))
    (goo : StratOutcome GooseData) (h : trafHasResult traf = false) :
    extract_body traf goo = gooseStep200 goo := by
  cases traf with
  | error => rfl
  | ok o =>
    cases o with
    | none => rfl
    | some d =>
      obtain ⟨text, title⟩ := d
      cases text with
      | none => rfl
      | some t =>
        rw [extract_body_traf_text]
        have hb : (!t.isEmpty && decide (200 < (pyStrip t).length)) = false := h
        have hcond : ¬ (t ≠ [] ∧ 200 < (pyStrip t).length) := by
          rintro ⟨ht, hlen⟩
          cases t with
          | nil => exact ht rfl
          | cons c cs =>
            rw [show (!(c :: cs).isEmpty) = true from rfl, Bool.true_and] at hb
            exact of_decide_eq_false hb hlen
        exact if_neg hcond

theorem gooseStep200_fail (goo : StratOutcome GooseData) (h : gooseHasResult goo = false) :
    gooseStep200 goo = (none, none) := by
  cases goo with
  | error => rfl
  | ok g =>
    obtain ⟨cleaned, title⟩ := g
    cases cleaned with
    | none => rfl
    | some t =>
      rw [gooseStep200_text]
      have hb : (!t.isEmpty && decide (200 < (pyStrip t).length)) = false := h
      have hcond : ¬ (t ≠ [] ∧ 200 < (pyStrip t).length) := by
        rintro ⟨ht, hlen⟩
        cases t with
        | nil => exact ht rfl
        | cons c cs =>
          rw [show (!(c :: cs).isEmpty) = true from rfl, Bool.true_and] at hb
          exact of_decide_eq_false hb hlen
      exact if_neg hcond

/-- Claim C3 (amended): in the SQL variant (`rss_collector.py`) the
chain behaves exactly as claimed with threshold 200: strategies are
tried in fixed order, the first non-empty result whose stripped body
exceeds 200 characters wins, a strategy at or below the threshold falls
through to the next, and if every strategy fails the chain returns
`(None, None)`.  In the CSV variant the generic strategies use
threshold 0 on the raw text, and the outlet-specific strategy's result
is returned whenever its selector matches, with no length check at all
— even when the cleaned body is empty. -/
theorem extraction_chain_priority_order :
    (∀ (t : Str) (title : Option Str) (goo : StratOutcome GooseData),
        200 < (pyStrip t).length →
        extract_body (.ok (some ⟨some t, title⟩)) goo = (title, some (normText t))
          ∧ normText t ≠ [])
  ∧ (∀ (traf : StratOutcome (Option TrafData)) (goo : StratOutcome GooseData),
        trafHasResult traf = false → extract_body traf goo = gooseStep200 goo)
  ∧ (∀ (t : Str) (title : Option Str),
        200 < (pyStrip t).length →
        gooseStep200 (.ok ⟨some t, title⟩) = (title, some (normText t))
          ∧ normText t ≠ [])
  ∧ (∀ (traf : StratOutcome (Option TrafData)) (goo : StratOutcome GooseData),
        trafHasResult traf = false → gooseHasResult goo = false →
        extract_body traf goo = (none, none))
  ∧ (∀ (d : YnaData) (traf : StratOutcome (Option TrafData)) (goo : StratOutcome GooseData),
        extract_body_csv (.ok (some d)) traf goo
          = (d.title, some ((ynaClean d.text).take MAX_BODY_CHARS_CSV))) := by
  refine ⟨?_, extract_body_fallthrough, ?_, ?_, ?_⟩
  · intro t title goo hlen
    refine ⟨?_, normText_ne_nil hlen⟩
    rw [extract_body_traf_text]
    exact if_pos ⟨pyStrip_long_ne_nil hlen, hlen⟩
  · intro t title hlen
    refine ⟨?_, normText_ne_nil hlen⟩
    rw [gooseStep200_text]
    exact if_pos ⟨pyStrip_long_ne_nil hlen, hlen⟩
  · intro traf goo h1 h2
    rw [extract_body_fallthrough traf goo h1, gooseStep200_fail goo h2]
  · intro d traf goo
    rfl

set_option maxRecDepth 4000 in
/-- Claim C3 (witness): a `trafilatura` text of 201 non-space
characters is accepted and returned by the SQL-variant chain. -/
theorem extraction_chain_priority_order_witness :
    extract_body (.ok (some ⟨some (List.replicate 201 'a'), some ['T']⟩)) (.ok ⟨none, none⟩)
        = (some ['T'], some (normText (List.replicate 201 'a')))
      ∧ normText (List.replicate 201 'a') ≠ [] :=
  extraction_chain_priority_order.1 (List.replicate 201 'a') (some ['T'])
    (.ok ⟨none, none⟩) (by decide)

/-- Claim C9: each strategy's internal failure (a raised exception,
caught by the chain's `try`/`except`) contributes exactly "no result":
the chain's value with a strategy erroring equals its value with that
strategy returning nothing, in both variants and at every position of
the chain; the chain itself is a total function, so it always returns a
`(title, body)` pair and never propagates a strategy error. -/
theorem strategy_errors_are_no_results :
    (∀ goo : StratOutcome GooseData,
        extract_body .error goo = extract_body (.ok none) goo)
  ∧ (∀ traf : StratOutcome (Option TrafData),
        extract_body traf .error = extract_body traf (.ok ⟨none, none⟩))
  ∧ (∀ (traf : StratOutcome (Option TrafData)) (goo : StratOutcome GooseData),
        extract_body_csv .error traf goo = extract_body_csv (.ok none) traf goo)
  ∧ (∀ (yna : StratOutcome (Option YnaData)) (goo : StratOutcome GooseData),
        extract_body_csv yna .error goo = extract_body_csv yna (.ok none) goo)
  ∧ (∀ (yna : StratOutcome (Option YnaData)) (traf : StratOutcome (Option TrafData)),
        extract_body_csv yna traf .error = extract_body_csv yna traf (.ok ⟨none, none⟩)) := by
  have hgoo : gooseStep200 .error = gooseStep200 (.ok ⟨none, none⟩) := rfl
  have hcsvgoo : csvGooseStep .error = csvGooseStep (.ok ⟨none, none⟩) := rfl
  have htraf : ∀ traf : StratOutcome (Option TrafData),
      csvTrafStep traf .error = csvTrafStep traf (.ok ⟨none, none⟩) := by
    intro traf
    cases traf with
    | error => exact hcsvgoo
    | ok o =>
      cases o with
      | none => exact hcsvgoo
      | some d =>
        obtain ⟨text, title⟩ := d
        cases text with
        | none => exact hcsvgoo
        | some t =>
          rw [csvTrafStep_text, csvTrafStep_text]
          by_cases hc : t ≠ []
          · rw [if_pos hc, if_pos hc]
          · rw [if_neg hc, if_neg hc, hcsvgoo]
  refine ⟨fun goo => rfl, ?_, fun traf goo => rfl, ?_, ?_⟩
  · intro traf
    cases traf with
    | error => exact hgoo
    | ok o =>
      cases o with
      | none => exact hgoo
      | some d =>
        obtain ⟨text, title⟩ := d
        cases text with
        | none => exact hgoo
        | some t =>
          rw [extract_body_traf_text, extract_body_traf_text]
          by_cases hc : t ≠ [] ∧ 200 < (pyStrip t).length
          · rw [if_pos hc, if_pos hc]
          · rw [if_neg hc, if_neg hc, hgoo]
  · intro yna goo
    cases yna with
    | error => rfl
    | ok o =>
      cases o with
      | none => rfl
      | some d => rfl
  · intro yna traf
    cases yna with
    | error => exact htraf traf
    | ok o =>
      cases o with
      | none => exact htraf traf
      | some d => rfl


/-! ## Repository model

State kept by the SQL repository (`Repo` in `rss_collector.py`): the
`feeds` and `articles` tables.  Timestamps (`utcnow()`) are modelled as
an abstract clock value `now : Nat` supplied per call; the SHA-256
digest of `hashlib` is external code and is modelled as an arbitrary
digest function `sha : Str → Str` threaded through the repository. -/

/-- A row of the `feeds` table. -/
structure Feed where
  id : Nat
  outlet : Str
  url : Str
  active : Bool
  etag : Option Str
  last_modified : Option Str
  last_checked : Option Nat
deriving DecidableEq

/-- A row of the `articles` table. -/
structure Article where
  id : Nat
  outlet : Str
  feed_id : Nat
  url : Str
  canonical_url : Str
  title : Str
  summary : Str
  published_at : Option Nat
  author : Option Str
  html_sha256 : Option Str
  html_path : Option Str
  body : Option Str
  hash_sha256 : Str
  created_at : Nat
deriving DecidableEq

/-- The database of the SQL variant. -/
structure RepoState where
  feeds : List Feed
  articles : List Article
deriving DecidableEq

/-- The canonical URLs currently stored in the `articles` table. -/
def canonicals (s : RepoState) : List Str :=
  s.articles.map (fun a => a.canonical_url)

/-- `body[:200] if body else ''` (`rss_collector.py` line 126,
`csv_rss_collector.py` line 83): the first 200 characters of the body,
with a falsy body (`None` or `""`) contributing the empty string. -/
def bodyKey200 (body : Option Str) : Str :=
  match body with
  | none => []
  | some b => if b = [] then [] else b.take 200

/-- `content_key = f"{canonical}|{body[:200] if body else ''}"`. -/
def contentKey (canonical : Str) (body : Option Str) : Str :=
  canonical ++ '|' :: bodyKey200 body

/-- The body-cap step of `insert_article`
(`if body and len(body) > MAX_BODY_CHARS: body = body[:MAX_BODY_CHARS]`). -/
def capBody (maxBodyChars : Nat) (b : Str) : Str :=
  if maxBodyChars < b.length then b.take maxBodyChars else b

/-- The body-cap step applied to an optional body (a `None` body is
left as `None`). -/
def truncBody (maxBodyChars : Nat) (body : Option Str) : Option Str :=
  match body with
  | none => none
  | some b => some (capBody maxBodyChars b)

namespace Repo

/-- `Repo.insert_article` (`rss_collector.py` lines 121-140): compute
the canonical URL and content hash, cap the body, then attempt the
insert.  The `uix_canonical` uniqueness constraint on `canonical_url`
makes the database reject the insert with an `IntegrityError` exactly
when a row with the same canonical URL already exists; the method
catches it and returns `None` (the duplicate signal), writing nothing.
The autoincrement primary key is modelled as one more than the current
row count. -/
def insert_article (sha : Str → Str) (maxBodyChars now : Nat) (s : RepoState)
    (feed_id : Nat) (outlet url title summary : Str) (published_at : Option Nat)
    (author html_sha256 html_path : Option Str) (body : Option Str) :
    Option Nat × RepoState :=
  let canonical := canonicalize_url url
  let hash_key := sha (contentKey canonical body)
  let body2 := truncBody maxBodyChars body
  if canonical ∈ canonicals s then
    (none, s)
  else
    let newId := s.articles.length + 1
    (some newId,
      { s with articles := s.articles ++
          [{ id := newId, outlet := outlet, feed_id := feed_id, url := url,
             canonical_url := canonical, title := title, summary := summary,
             published_at := published_at, author := author,
             html_sha256 := html_sha256, html_path := html_path,
             body := body2, hash_sha256 := hash_key, created_at := now }] })

/-- `Repo.update_feed_state` (`rss_collector.py` lines 113-119): sets
the conditional-GET tokens and refreshes `last_checked` to the current
time for the given feed row.  Defined in the source but never invoked
by the pipeline. -/
def update_feed_state (now : Nat) (s : RepoState) (feed_id : Nat)
    (etag last_modified : Option Str) : RepoState :=
  { s with feeds := s.feeds.map (fun f =>
      if f.id = feed_id then
        { f with etag := etag, last_modified := last_modified, last_checked := some now }
      else f) }

/-- `Repo.list_active_feeds` (`rss_collector.py` lines 108-111). -/
def list_active_feeds (s : RepoState) : List Feed :=
  s.feeds.filter (fun f => f.active)

end Repo

/-- The arguments of one `insert_article` call, bundled. -/
structure InsertArgs where
  feed_id : Nat
  outlet : Str
  url : Str
  title : Str
  summary : Str
  published_at : Option Nat
  author : Option Str
  html_sha256 : Option Str
  html_path : Option Str
  body : Option Str
deriving DecidableEq

/-- `Repo.insert_article` applied to bundled arguments. -/
def insertA (sha : Str → Str) (maxBodyChars now : Nat) (s : RepoState)
    (a : InsertArgs) : Option Nat × RepoState :=
  Repo.insert_article sha maxBodyChars now s a.feed_id a.outlet a.url a.title
    a.summary a.published_at a.author a.html_sha256 a.html_path a.body

/-- The state after an arbitrary sequence of `insert_article` calls. -/
def applyInserts (sha : Str → Str) (maxBodyChars now : Nat)
    (calls : List InsertArgs) (s : RepoState) : RepoState :=
  calls.foldl (fun st c => (insertA sha maxBodyChars now st c).2) s

/-! ### The CSV repository (`CsvRepo` in `csv_rss_collector.py`) -/

/-- A row of `articles.csv`; optional fields are stored as `""`. -/
structure CsvArticle where
  id : Nat
  outlet : Str
  feed_id : Nat
  url : Str
  canonical_url : Str
  title : Str
  summary : Str
  published_at : Str
  author : Str
  html_sha256 : Str
  html_path : Str
  body : Str
  hash_sha256 : Str
  created_at : Nat
deriving DecidableEq

/-- The canonical URLs currently stored in `articles.csv`. -/
def csvCanonicals (arts : List CsvArticle) : List Str :=
  arts.map (fun a => a.canonical_url)

namespace CsvRepo

/-- `CsvRepo._next_id` (`csv_rss_collector.py` lines 56-60): 1 for an
empty table, else the maximum stored id plus one. -/
def next_id (arts : List CsvArticle) : Nat :=
  (arts.foldl (fun m a => max m a.id) 0) + 1

/-- `CsvRepo.insert_article` (`csv_rss_collector.py` lines 79-112):
compute canonical URL and content hash, return `None` (writing
nothing) if a row with this canonical URL exists, else cap the body
and append a new row, storing `""` for absent optional fields. -/
def insert_article (sha : Str → Str) (now : Nat) (arts : List CsvArticle)
    (feed_id : Nat) (outlet url title summary : Str)
    (published_at author html_sha256 html_path : Option Str) (body : Option Str) :
    Option Nat × List CsvArticle :=
  let canonical := canonicalize_url url
  let hash_key := sha (contentKey canonical body)
  if canonical ∈ csvCanonicals arts then
    (none, arts)
  else
    let newId := next_id arts
    let body2 := truncBody MAX_BODY_CHARS_CSV body
    (some newId,
      arts ++ [{ id := newId, outlet := outlet, feed_id := feed_id, url := url,
                 canonical_url := canonical, title := title, summary := summary,
                 published_at := published_at.getD [], author := author.getD [],
                 html_sha256 := html_sha256.getD [], html_path := html_path.getD [],
                 body := body2.getD [], hash_sha256 := hash_key,
                 created_at := now }])

end CsvRepo

/-- One `CsvRepo.insert_article` call with bundled arguments. -/
def csvInsertA (sha : Str → Str) (now : Nat) (arts : List CsvArticle)
    (a : InsertArgs) : Option Nat × List CsvArticle :=
  CsvRepo.insert_article sha now arts a.feed_id a.outlet a.url a.title
    a.summary (a.published_at.map (fun _ => [])) a.author a.html_sha256 a.html_path a.body

/-- The CSV table after an arbitrary sequence of `insert_article`
calls. -/
def csvApplyInserts (sha : Str → Str) (now : Nat)
    (calls : List InsertArgs) (arts : List CsvArticle) : List CsvArticle :=
  calls.foldl (fun st c => (csvInsertA sha now st c).2) arts


/-! ## The ingestion pipeline (`rss_collector.py` lines 173-229, 257-263)

The network and the external parsers supply the pipeline's inputs:
a feed poll yields an HTTP status and a list of `feedparser` entries,
and each entry's page fetch yields either an exception or the data the
external extractors produce for that page.  These are bundled as
"world" values consumed by the translated pipeline code. -/

/-- The fields the pipeline reads from one `feedparser` entry.  The
`published_parsed`/`updated_parsed` attributes are modelled as
`none` = absent-or-falsy, `some none` = present but
`datetime(*tm[:6])` raised, `some (some ts)` = parsed to `ts`. -/
structure EntryRaw where
  link : Option Str
  eid : Option Str
  title : Option Str
  author : Option Str
  summary : Option Str
  published_parsed : Option (Option Nat)
  updated_parsed : Option (Option Nat)
deriving DecidableEq

/-- Python string truthiness for an optional string: `None` and `""`
are falsy. -/
def pyTruthy (o : Option Str) : Option Str :=
  match o with
  | some s => if s = [] then none else some s
  | none => none

/-- `link = e.get("link") or e.get("id")` (line 189), together with the
`if not link: continue` test (line 190-191): `none` means the entry is
dropped. -/
def entryLink (e : EntryRaw) : Option Str :=
  match pyTruthy e.link with
  | some l => some l
  | none => pyTruthy e.eid

/-- `title = (e.get("title") or "").strip()` (line 192). -/
def entryTitle (e : EntryRaw) : Str :=
  pyStrip (match e.title with | some t => t | none => [])

/-- `author = (e.get("author") or "").strip() if e.get("author") else None`
(line 193). -/
def entryAuthor (e : EntryRaw) : Option Str :=
  match pyTruthy e.author with
  | some a => some (pyStrip a)
  | none => none

/-- `summary = (e.get("summary") or "").strip() if e.get("summary") else ""`
(line 194). -/
def entrySummary (e : EntryRaw) : Str :=
  match pyTruthy e.summary with
  | some a => pyStrip a
  | none => []

/-- The `published_parsed`/`updated_parsed` resolution loop
(lines 195-203): the first attribute that is present and converts
without raising wins. -/
def resolvePublished (e : EntryRaw) : Option Nat :=
  match e.published_parsed with
  | some (some ts) => some ts
  | _ =>
    match e.updated_parsed with
    | some (some ts) => some ts
    | _ => none

/-- What the external world produces for one article page: the digest
and path `write_html_local` returns for the fetched HTML, and the two
extractor outcomes for that HTML. -/
structure PageData where
  htmlSha : Str
  htmlPath : Str
  traf : StratOutcome (Option TrafData)
  goo : StratOutcome GooseData
deriving DecidableEq

/-- One feed entry together with its page-fetch outcome; `none` models
`client.get(link)` raising (lines 205-209), after which the entry is
skipped. -/
structure EntryWorld where
  entry : EntryRaw
  page : Option PageData
deriving DecidableEq

/-- One feed poll: `none` models `client.get(feed_url)` raising (the
exception is caught by `run_once`'s per-feed `try`/`except`, lines
260-263, leaving the state untouched); otherwise the HTTP status code
and the parsed entries. -/
structure FeedWorld where
  resp : Option (Nat × List EntryWorld)
deriving DecidableEq

/-- Python `a or b` on two strings: `a` when non-empty, else `b`. -/
def pyOrStr (a b : Str) : Str :=
  if a ≠ [] then a else b

/-- `if not body: body = summary or title` (lines 213-214): the body
kept for persistence, substituting the feed summary then the feed
title when the chain produced a falsy (absent or empty) body. -/
def fallbackBody (extracted : Option Str) (summary title : Str) : Str :=
  match extracted with
  | some b => if b = [] then pyOrStr summary title else b
  | none => pyOrStr summary title

/-- `final_title = extracted_title or title or ""` (line 217); `title`
is already `""` when the feed supplied none. -/
def finalTitleOf (extracted : Option Str) (title : Str) : Str :=
  match extracted with
  | some t => if t = [] then title else t
  | none => title

/-- The per-entry body of the loop in `fetch_and_process_feed`
(`rss_collector.py` lines 188-229): skip entries without a link, skip
entries whose page fetch raised, run the extraction chain, apply the
summary-then-title fallback for a falsy body, derive the final title
and lead summary, and insert. -/
def processEntry (sha : Str → Str) (maxBodyChars now : Nat) (feed : Feed)
    (ew : EntryWorld) (s : RepoState) : RepoState :=
  match entryLink ew.entry with
  | none => s
  | some link =>
    match ew.page with
    | none => s
    | some pd =>
      let extractedPair := extract_body pd.traf pd.goo
      let summary := entrySummary ew.entry
      let title := entryTitle ew.entry
      let body := fallbackBody extractedPair.2 summary title
      let final_title := finalTitleOf extractedPair.1 title
      let final_summary := guess_lead (pyOrStr body (pyOrStr summary final_title))
      (Repo.insert_article sha maxBodyChars now s feed.id feed.outlet link
        final_title final_summary (resolvePublished ew.entry) (entryAuthor ew.entry)
        (some pd.htmlSha) (some pd.htmlPath) (some body)).2

/-- `fetch_and_process_feed` (`rss_collector.py` lines 173-229): fetch
the feed; on a raised fetch or a non-200 status, return with the state
untouched; otherwise process every parsed entry in order. -/
def fetch_and_process_feed (sha : Str → Str) (maxBodyChars now : Nat)
    (fw : FeedWorld) (feed : Feed) (s : RepoState) : RepoState :=
  match fw.resp with
  | none => s
  | some (status, entries) =>
    if status ≠ 200 then s
    else entries.foldl (fun st ew => processEntry sha maxBodyChars now feed ew st) s

/-- The loop body of `run_once` (`rss_collector.py` lines 257-263) over
an explicit list of feed rows; the per-feed `try`/`except` is absorbed
into `fetch_and_process_feed`'s `none`-response case. -/
def processFeeds (sha : Str → Str) (maxBodyChars now : Nat)
    (w : Feed → FeedWorld) (rows : List Feed) (s : RepoState) : RepoState :=
  rows.foldl (fun st row => fetch_and_process_feed sha maxBodyChars now (w row) row st) s

/-- `run_once`: process every active feed, rows snapshot taken up
front. -/
def run_once (sha : Str → Str) (maxBodyChars now : Nat)
    (w : Feed → FeedWorld) (s : RepoState) : RepoState :=
  processFeeds sha maxBodyChars now w (Repo.list_active_feeds s) s


/-! ## Persistence theorems -/

theorem insert_article_dup (sha : Str → Str) (mbc now : Nat) (s : RepoState)
    (fid : Nat) (o url t sm : Str) (p : Option Nat) (au hs hp : Option Str)
    (b : Option Str) (h : canonicalize_url url ∈ canonicals s) :
    Repo.insert_article sha mbc now s fid o url t sm p au hs hp b = (none, s) := by
  simp only [Repo.insert_article]
  rw [if_pos h]

theorem insert_article_fresh (sha : Str → Str) (mbc now : Nat) (s : RepoState)
    (fid : Nat) (o url t sm : Str) (p : Option Nat) (au hs hp : Option Str)
    (b : Option Str) (h : canonicalize_url url ∉ canonicals s) :
    Repo.insert_article sha mbc now s fid o url t sm p au hs hp b =
      (some (s.articles.length + 1),
        { s with articles := s.articles ++
            [{ id := s.articles.length + 1, outlet := o, feed_id := fid, url := url,
               canonical_url := canonicalize_url url, title := t, summary := sm,
               published_at := p, author := au, html_sha256 := hs, html_path := hp,
               body := truncBody mbc b,
               hash_sha256 := sha (contentKey (canonicalize_url url) b),
               created_at := now }] }) := by
  simp only [Repo.insert_article]
  rw [if_neg h]

theorem csv_insert_article_dup (sha : Str → Str) (now : Nat) (arts : List CsvArticle)
    (fid : Nat) (o url t sm : Str) (p au hs hp : Option Str) (b : Option Str)
    (h : canonicalize_url url ∈ csvCanonicals arts) :
    CsvRepo.insert_article sha now arts fid o url t sm p au hs hp b = (none, arts) := by
  simp only [CsvRepo.insert_article]
  rw [if_pos h]

theorem csv_insert_article_fresh (sha : Str → Str) (now : Nat) (arts : List CsvArticle)
    (fid : Nat) (o url t sm : Str) (p au hs hp : Option Str) (b : Option Str)
    (h : canonicalize_url url ∉ csvCanonicals arts) :
    CsvRepo.insert_article sha now arts fid o url t sm p au hs hp b =
      (some (CsvRepo.next_id arts),
        arts ++ [{ id := CsvRepo.next_id arts, outlet := o, feed_id := fid, url := url,
                   canonical_url := canonicalize_url url, title := t, summary := sm,
                   published_at := p.getD [], author := au.getD [],
                   html_sha256 := hs.getD [], html_path := hp.getD [],
                   body := (truncBody MAX_BODY_CHARS_CSV b).getD [],
                   hash_sha256 := sha (contentKey (canonicalize_url url) b),
                   created_at := now }]) := by
  simp only [CsvRepo.insert_article]
  rw [if_neg h]

theorem canonicals_append_row (s : RepoState) (r : Article) :
    canonicals { s with articles := s.articles ++ [r] } =
      canonicals s ++ [r.canonical_url] := by
  simp [canonicals]

theorem insertA_preserves_nodup (sha : Str → Str) (mbc now : Nat) (s : RepoState)
    (a : InsertArgs) (h : (canonicals s).Nodup) :
    (canonicals (insertA sha mbc now s a).2).Nodup := by
  by_cases hmem : canonicalize_url a.url ∈ canonicals s
  · rw [insertA, insert_article_dup _ _ _ _ _ _ _ _ _ _ _ _ _ _ hmem]
    exact h
  · rw [insertA, insert_article_fresh _ _ _ _ _ _ _ _ _ _ _ _ _ _ hmem]
    rw [canonicals_append_row]
    rw [List.nodup_append]
    refine ⟨h, List.nodup_singleton _, ?_⟩
    intro x hx hx'
    simp only [List.mem_singleton] at hx'
    subst hx'
    exact hmem hx

theorem csv_canonicals_append_row (arts : List CsvArticle) (r : CsvArticle) :
    csvCanonicals (arts ++ [r]) = csvCanonicals arts ++ [r.canonical_url] := by
  simp [csvCanonicals]

theorem csvInsertA_preserves_nodup (sha : Str → Str) (now : Nat)
    (arts : List CsvArticle) (a : InsertArgs) (h : (csvCanonicals arts).Nodup) :
    (csvCanonicals (csvInsertA sha now arts a).2).Nodup := by
  by_cases hmem : canonicalize_url a.url ∈ csvCanonicals arts
  · rw [csvInsertA, csv_insert_article_dup _ _ _ _ _ _ _ _ _ _ _ _ _ hmem]
    exact h
  · rw [csvInsertA, csv_insert_article_fresh _ _ _ _ _ _ _ _ _ _ _ _ _ hmem]
    rw [csv_canonicals_append_row]
    rw [List.nodup_append]
    refine ⟨h, List.nodup_singleton _, ?_⟩
    intro x hx hx'
    simp only [List.mem_singleton] at hx'
    subst hx'
    exact hmem hx

/-- Claim C1: inserting two raw URLs with the same canonical URL: the
first call returns a new id, the second returns the duplicate signal
`None` and performs no write, and exactly one stored row carries that
canonical URL; moreover every sequence of `insert_article` calls
preserves at-most-one-row-per-canonical-URL.  Proved for both the SQL
repository (uniqueness enforced by the `uix_canonical` constraint) and
the CSV repository (enforced by its pre-insert membership check). -/
theorem insert_article_dedup :
    (∀ (sha : Str → Str) (mbc now : Nat) (s : RepoState) (a1 a2 : InsertArgs),
        canonicalize_url a1.url = canonicalize_url a2.url →
        canonicalize_url a1.url ∉ canonicals s →
        (∃ i, (insertA sha mbc now s a1).1 = some i)
        ∧ (insertA sha mbc now (insertA sha mbc now s a1).2 a2).1 = none
        ∧ (insertA sha mbc now (insertA sha mbc now s a1).2 a2).2 = (insertA sha mbc now s a1).2
        ∧ ((insertA sha mbc now s a1).2.articles.filter
              (fun r => r.canonical_url = canonicalize_url a1.url)).length = 1)
  ∧ (∀ (sha : Str → Str) (now : Nat) (arts : List CsvArticle) (a1 a2 : InsertArgs),
        canonicalize_url a1.url = canonicalize_url a2.url →
        canonicalize_url a1.url ∉ csvCanonicals arts →
        (∃ i, (csvInsertA sha now arts a1).1 = some i)
        ∧ (csvInsertA sha now (csvInsertA sha now arts a1).2 a2).1 = none
        ∧ (csvInsertA sha now (csvInsertA sha now arts a1).2 a2).2 = (csvInsertA sha now arts a1).2
        ∧ ((csvInsertA sha now arts a1).2.filter
              (fun r => r.canonical_url = canonicalize_url a1.url)).length = 1)
  ∧ (∀ (sha : Str → Str) (mbc now : Nat) (calls : List InsertArgs) (s : RepoState),
        (canonicals s).Nodup → (canonicals (applyInserts sha mbc now calls s)).Nodup)
  ∧ (∀ (sha : Str → Str) (now : Nat) (calls : List InsertArgs) (arts : List CsvArticle),
        (csvCanonicals arts).Nodup → (csvCanonicals (csvApplyInserts sha now calls arts)).Nodup) := by
  refine ⟨?_, ?_, ?_, ?_⟩
  · intro sha mbc now s a1 a2 hcan habs
    have hfresh := insert_article_fresh sha mbc now s a1.feed_id a1.outlet a1.url a1.title
      a1.summary a1.published_at a1.author a1.html_sha256 a1.html_path a1.body habs
    have hfreshA : insertA sha mbc now s a1 = _ := hfresh
    have hmem2 : canonicalize_url a2.url ∈ canonicals (insertA sha mbc now s a1).2 := by
      rw [hfreshA, canonicals_append_row]
      rw [← hcan]
      exact List.mem_append_right _ (List.mem_singleton.mpr rfl)
    have hdup := insert_article_dup sha mbc now (insertA sha mbc now s a1).2 a2.feed_id
      a2.outlet a2.url a2.title a2.summary a2.published_at a2.author a2.html_sha256
      a2.html_path a2.body hmem2
    have hdupA : insertA sha mbc now (insertA sha mbc now s a1).2 a2 = _ := hdup
    refine ⟨⟨s.articles.length + 1, ?_⟩, ?_, ?_, ?_⟩
    · rw [hfreshA]
    · rw [hdupA]
    · rw [hdupA]
    · rw [hfreshA]
      simp only [List.filter_append]
      have h0 : s.articles.filter (fun r => r.canonical_url = canonicalize_url a1.url) = [] := by
        rw [List.filter_eq_nil]
        intro r hr
        simp only [decide_eq_true_eq]
        intro hq
        exact habs (List.mem_map.mpr ⟨r, hr, hq⟩)
      rw [h0]
      simp
  · intro sha now arts a1 a2 hcan habs
    have hfresh := csv_insert_article_fresh sha now arts a1.feed_id a1.outlet a1.url a1.title
      a1.summary (a1.published_at.map (fun _ => [])) a1.author a1.html_sha256 a1.html_path
      a1.body habs
    have hfreshA : csvInsertA sha now arts a1 = _ := hfresh
    have hmem2 : canonicalize_url a2.url ∈ csvCanonicals (csvInsertA sha now arts a1).2 := by
      rw [hfreshA, csv_canonicals_append_row]
      rw [← hcan]
      exact List.mem_append_right _ (List.mem_singleton.mpr rfl)
    have hdup := csv_insert_article_dup sha now (csvInsertA sha now arts a1).2 a2.feed_id
      a2.outlet a2.url a2.title a2.summary (a2.published_at.map (fun _ => [])) a2.author
      a2.html_sha256 a2.html_path a2.body hmem2
    have hdupA : csvInsertA sha now (csvInsertA sha now arts a1).2 a2 = _ := hdup
    refine ⟨⟨CsvRepo.next_id arts, ?_⟩, ?_, ?_, ?_⟩
    · rw [hfreshA]
    · rw [hdupA]
    · rw [hdupA]
    · rw [hfreshA]
      simp only [List.filter_append]
      have h0 : arts.filter (fun r => r.canonical_url = canonicalize_url a1.url) = [] := by
        rw [List.filter_eq_nil]
        intro r hr
        simp only [decide_eq_true_eq]
        intro hq
        exact habs (List.mem_map.mpr ⟨r, hr, hq⟩)
      rw [h0]
      simp
  · intro sha mbc now calls
    induction calls with
    | nil => intro s h; exact h
    | cons c rest ih =>
      intro s h
      exact ih _ (insertA_preserves_nodup sha mbc now s c h)
  · intro sha now calls
    induction calls with
    | nil => intro arts h; exact h
    | cons c rest ih =>
      intro arts h
      exact ih _ (csvInsertA_preserves_nodup sha now arts c h)

/-- Claim C1 (witness): two concrete URLs `"u?1"` and `"u#2"` share the
canonical URL `"u"`; inserting both into an empty SQL repository. -/
theorem insert_article_dedup_witness :
    (∃ i, (insertA (fun _ => []) 5 0 ⟨[], []⟩
        ⟨1, [], ['u', '?', '1'], [], [], none, none, none, none, none⟩).1 = some i)
    ∧ (insertA (fun _ => []) 5 0
        (insertA (fun _ => []) 5 0 ⟨[], []⟩
          ⟨1, [], ['u', '?', '1'], [], [], none, none, none, none, none⟩).2
        ⟨1, [], ['u', '#', '2'], [], [], none, none, none, none, none⟩).1 = none
    ∧ (insertA (fun _ => []) 5 0
        (insertA (fun _ => []) 5 0 ⟨[], []⟩
          ⟨1, [], ['u', '?', '1'], [], [], none, none, none, none, none⟩).2
        ⟨1, [], ['u', '#', '2'], [], [], none, none, none, none, none⟩).2 =
      (insertA (fun _ => []) 5 0 ⟨[], []⟩
        ⟨1, [], ['u', '?', '1'], [], [], none, none, none, none, none⟩).2
    ∧ ((insertA (fun _ => []) 5 0 ⟨[], []⟩
          ⟨1, [], ['u', '?', '1'], [], [], none, none, none, none, none⟩).2.articles.filter
        (fun r => r.canonical_url = canonicalize_url
          (InsertArgs.url ⟨1, [], ['u', '?', '1'], [], [], none, none, none, none, none⟩))).length = 1 :=
  insert_article_dedup.1 (fun _ => []) 5 0 ⟨[], []⟩
    ⟨1, [], ['u', '?', '1'], [], [], none, none, none, none, none⟩
    ⟨1, [], ['u', '#', '2'], [], [], none, none, none, none, none⟩
    (by decide) (by decide)


/-! ## Pipeline frame and failure-isolation theorems -/

theorem insert_article_feeds_frame (sha : Str → Str) (mbc now : Nat) (s : RepoState)
    (fid : Nat) (o url t sm : Str) (p : Option Nat) (au hs hp : Option Str)
    (b : Option Str) :
    (Repo.insert_article sha mbc now s fid o url t sm p au hs hp b).2.feeds = s.feeds := by
  by_cases h : canonicalize_url url ∈ canonicals s
  · rw [insert_article_dup _ _ _ _ _ _ _ _ _ _ _ _ _ _ h]
  · rw [insert_article_fresh _ _ _ _ _ _ _ _ _ _ _ _ _ _ h]

theorem processEntry_feeds_frame (sha : Str → Str) (mbc now : Nat) (feed : Feed)
    (ew : EntryWorld) (s : RepoState) :
    (processEntry sha mbc now feed ew s).feeds = s.feeds := by
  unfold processEntry
  cases entryLink ew.entry with
  | none => rfl
  | some link =>
    cases ew.page with
    | none => rfl
    | some pd =>
      exact insert_article_feeds_frame _ _ _ _ _ _ _ _ _ _ _ _ _ _

theorem foldl_processEntry_feeds_frame (sha : Str → Str) (mbc now : Nat) (feed : Feed)
    (entries : List EntryWorld) (s : RepoState) :
    (entries.foldl (fun st ew => processEntry sha mbc now feed ew st) s).feeds = s.feeds := by
  induction entries generalizing s with
  | nil => rfl
  | cons ew rest ih =>
    rw [List.foldl_cons, ih, processEntry_feeds_frame]

/-- Claim C4 (amended): a poll attempt leaves every `Feed` row entirely
unchanged — in particular `last_checked` is NOT refreshed (the claim's
"other fields unchanged" half does hold).  `Repo.update_feed_state`,
which would refresh `last_checked`, is defined but never called by the
pipeline. -/
theorem poll_leaves_feeds_unchanged (sha : Str → Str) (mbc now : Nat)
    (fw : FeedWorld) (feed : Feed) (s : RepoState) :
    (fetch_and_process_feed sha mbc now fw feed s).feeds = s.feeds := by
  unfold fetch_and_process_feed
  cases fw.resp with
  | none => rfl
  | some pair =>
    by_cases h : pair.1 ≠ 200
    · simp only [if_pos h]
    · simp only [if_neg h]
      exact foldl_processEntry_feeds_frame _ _ _ _ _ _

/-- Claim C4 (counterexample): a successful poll (status 200) at model
time 5 of a feed whose `last_checked` is unset leaves it unset, whereas
the claimed refresh — what `Repo.update_feed_state` would do — would
set it to the poll time. -/
theorem poll_last_checked_counterexample :
    (fetch_and_process_feed (fun _ => []) 0 5 ⟨some (200, [])⟩
        ⟨1, [], [], true, none, none, none⟩
        ⟨[⟨1, [], [], true, none, none, none⟩], []⟩).feeds.map (fun f => f.last_checked)
      = [none]
    ∧ (Repo.update_feed_state 5 ⟨[⟨1, [], [], true, none, none, none⟩], []⟩ 1
        none none).feeds.map (fun f => f.last_checked) = [some 5]
    ∧ ([(none : Option Nat)] : List (Option Nat)) ≠ [some 5] := by
  refine ⟨by decide, by decide, by decide⟩

theorem fetch_bad_status (sha : Str → Str) (mbc now status : Nat)
    (entries : List EntryWorld) (feed : Feed) (s : RepoState) (h : status ≠ 200) :
    fetch_and_process_feed sha mbc now ⟨some (status, entries)⟩ feed s = s := by
  unfold fetch_and_process_feed
  simp only
  rw [if_pos h]

/-- Claim C7: a feed whose fetch returns a non-success HTTP status
creates zero articles in that cycle (the state is returned untouched),
and the per-run loop over the remaining feeds is unaffected: running
the loop with the failing feed present yields exactly the state of
running it without that feed, so no single feed's failure terminates
the run. -/
theorem feed_failure_isolated :
    (∀ (sha : Str → Str) (mbc now status : Nat) (entries : List EntryWorld)
        (feed : Feed) (s : RepoState),
        status ≠ 200 →
        fetch_and_process_feed sha mbc now ⟨some (status, entries)⟩ feed s = s)
  ∧ (∀ (sha : Str → Str) (mbc now : Nat) (w : Feed → FeedWorld) (r1 r2 : List Feed)
        (f : Feed) (s : RepoState) (status : Nat) (entries : List EntryWorld),
        (w f).resp = some (status, entries) → status ≠ 200 →
        processFeeds sha mbc now w (r1 ++ f :: r2) s = processFeeds sha mbc now w (r1 ++ r2) s) := by
  refine ⟨fetch_bad_status, ?_⟩
  intro sha mbc now w r1 r2 f s status entries hresp hstatus
  unfold processFeeds
  rw [List.foldl_append, List.foldl_append, List.foldl_cons]
  have hmid : fetch_and_process_feed sha mbc now (w f) f
      (r1.foldl (fun st row => fetch_and_process_feed sha mbc now (w row) row st) s)
      = r1.foldl (fun st row => fetch_and_process_feed sha mbc now (w row) row st) s := by
    have hw : w f = ⟨some (status, entries)⟩ := by
      cases hwf : w f with
      | mk resp => rw [hwf] at hresp; simp only at hresp; rw [hresp]
    rw [hw]
    exact fetch_bad_status _ _ _ _ _ _ _ hstatus
  rw [hmid]

/-- Claim C7 (witness): a 404 feed poll against an empty repository at
concrete inputs leaves the state untouched. -/
theorem feed_failure_isolated_witness :
    fetch_and_process_feed (fun _ => []) 0 0 ⟨some (404, [])⟩
      ⟨1, [], [], true, none, none, none⟩ ⟨[], []⟩ = ⟨[], []⟩ :=
  feed_failure_isolated.1 (fun _ => []) 0 0 404 []
    ⟨1, [], [], true, none, none, none⟩ ⟨[], []⟩ (by decide)


/-! ## Content-hash and body-cap theorems -/

theorem bodyKey200_append_of_ge {b ext : Str} (h : 200 ≤ b.length) :
    bodyKey200 (some (b ++ ext)) = bodyKey200 (some b) := by
  have hb : b ≠ [] := by
    intro hnil
    subst hnil
    simp at h
  have hbe : b ++ ext ≠ [] := by
    intro hnil
    rcases List.append_eq_nil.mp hnil with ⟨h1, _⟩
    exact hb h1
  simp only [bodyKey200, if_neg hbe, if_neg hb]
  rw [List.take_append_eq_append_take]
  have : 200 - b.length = 0 := by omega
  rw [this]
  simp

/-- Claim C6: the stored `hash_sha256` is `sha` of a key built only
from the canonical URL and the first 200 characters of the body, for
every digest function `sha` (SHA-256 itself is external library code):
two inserts agreeing on canonical URL and body prefix store identical
hashes (in both repository variants), and extending a body beyond its
first 200 characters does not change the stored hash. -/
theorem content_hash_depends_on_canonical_and_body200 :
    (∀ (sha : Str → Str) (mbc now1 now2 : Nat) (s1 s2 : RepoState) (a1 a2 : InsertArgs),
        canonicalize_url a1.url = canonicalize_url a2.url →
        bodyKey200 a1.body = bodyKey200 a2.body →
        canonicalize_url a1.url ∉ canonicals s1 →
        canonicalize_url a2.url ∉ canonicals s2 →
        ∃ r1 r2, (insertA sha mbc now1 s1 a1).2.articles = s1.articles ++ [r1]
          ∧ (insertA sha mbc now2 s2 a2).2.articles = s2.articles ++ [r2]
          ∧ r1.hash_sha256 = r2.hash_sha256)
  ∧ (∀ (sha : Str → Str) (mbc now : Nat) (s1 s2 : RepoState) (a : InsertArgs) (b ext : Str),
        200 ≤ b.length →
        canonicalize_url a.url ∉ canonicals s1 →
        canonicalize_url a.url ∉ canonicals s2 →
        ∃ r1 r2, (insertA sha mbc now s1 { a with body := some b }).2.articles
            = s1.articles ++ [r1]
          ∧ (insertA sha mbc now s2 { a with body := some (b ++ ext) }).2.articles
            = s2.articles ++ [r2]
          ∧ r1.hash_sha256 = r2.hash_sha256)
  ∧ (∀ (sha : Str → Str) (now1 now2 : Nat) (arts1 arts2 : List CsvArticle) (a1 a2 : InsertArgs),
        canonicalize_url a1.url = canonicalize_url a2.url →
        bodyKey200 a1.body = bodyKey200 a2.body →
        canonicalize_url a1.url ∉ csvCanonicals arts1 →
        canonicalize_url a2.url ∉ csvCanonicals arts2 →
        ∃ r1 r2, (csvInsertA sha now1 arts1 a1).2 = arts1 ++ [r1]
          ∧ (csvInsertA sha now2 arts2 a2).2 = arts2 ++ [r2]
          ∧ r1.hash_sha256 = r2.hash_sha256) := by
  refine ⟨?_, ?_, ?_⟩
  · intro sha mbc now1 now2 s1 s2 a1 a2 hcan hkey habs1 habs2
    have h1 : insertA sha mbc now1 s1 a1 = _ :=
      insert_article_fresh sha mbc now1 s1 a1.feed_id a1.outlet a1.url a1.title a1.summary
        a1.published_at a1.author a1.html_sha256 a1.html_path a1.body habs1
    have h2 : insertA sha mbc now2 s2 a2 = _ :=
      insert_article_fresh sha mbc now2 s2 a2.feed_id a2.outlet a2.url a2.title a2.summary
        a2.published_at a2.author a2.html_sha256 a2.html_path a2.body habs2
    refine ⟨_, _, by rw [h1], by rw [h2], ?_⟩
    simp only [contentKey, hcan, hkey]
  · intro sha mbc now s1 s2 a b ext hlen habs1 habs2
    have h1 : insertA sha mbc now s1 { a with body := some b } = _ :=
      insert_article_fresh sha mbc now s1 a.feed_id a.outlet a.url a.title a.summary
        a.published_at a.author a.html_sha256 a.html_path (some b) habs1
    have h2 : insertA sha mbc now s2 { a with body := some (b ++ ext) } = _ :=
      insert_article_fresh sha mbc now s2 a.feed_id a.outlet a.url a.title a.summary
        a.published_at a.author a.html_sha256 a.html_path (some (b ++ ext)) habs2
    refine ⟨_, _, by rw [h1], by rw [h2], ?_⟩
    simp only [contentKey, bodyKey200_append_of_ge hlen]
  · intro sha now1 now2 arts1 arts2 a1 a2 hcan hkey habs1 habs2
    have h1 : csvInsertA sha now1 arts1 a1 = _ :=
      csv_insert_article_fresh sha now1 arts1 a1.feed_id a1.outlet a1.url a1.title a1.summary
        (a1.published_at.map (fun _ => [])) a1.author a1.html_sha256 a1.html_path a1.body habs1
    have h2 : csvInsertA sha now2 arts2 a2 = _ :=
      csv_insert_article_fresh sha now2 arts2 a2.feed_id a2.outlet a2.url a2.title a2.summary
        (a2.published_at.map (fun _ => [])) a2.author a2.html_sha256 a2.html_path a2.body habs2
    refine ⟨_, _, by rw [h1], by rw [h2], ?_⟩
    simp only [contentKey, hcan, hkey]

/-- Claim C6 (witness): two inserts whose URLs differ only in query
and fragment and whose bodies share their first 200 characters (here:
equal one-character bodies) store the same hash, with `sha`
instantiated to the identity digest. -/
theorem content_hash_depends_on_canonical_and_body200_witness :
    ∃ r1 r2, (insertA (fun d => d) 5 0 ⟨[], []⟩
        ⟨1, [], ['u', '?', '1'], [], [], none, none, none, none, some ['x']⟩).2.articles
        = ([] : List Article) ++ [r1]
      ∧ (insertA (fun d => d) 5 7 ⟨[], []⟩
          ⟨2, [], ['u', '#', '2'], [], [], none, none, none, none, some ['x']⟩).2.articles
        = ([] : List Article) ++ [r2]
      ∧ r1.hash_sha256 = r2.hash_sha256 :=
  content_hash_depends_on_canonical_and_body200.1 (fun d => d) 5 0 7 ⟨[], []⟩ ⟨[], []⟩
    ⟨1, [], ['u', '?', '1'], [], [], none, none, none, none, some ['x']⟩
    ⟨2, [], ['u', '#', '2'], [], [], none, none, none, none, some ['x']⟩
    (by decide) (by decide) (by decide) (by decide)

/-- Claim C8: when an insert stores a row, a body longer than the
configured `MAX_BODY_CHARS` is stored truncated to exactly that many
characters, and a body at or below the cap is stored unchanged — in
both repository variants (the CSV variant's cap is its constant
`MAX_BODY_CHARS = 10000`). -/
theorem body_truncated_to_max_chars :
    (∀ (sha : Str → Str) (mbc now : Nat) (s : RepoState) (a : InsertArgs) (b : Str),
        a.body = some b →
        canonicalize_url a.url ∉ canonicals s →
        ∃ r, (insertA sha mbc now s a).2.articles = s.articles ++ [r]
          ∧ (mbc < b.length → r.body = some (b.take mbc) ∧ (b.take mbc).length = mbc)
          ∧ (b.length ≤ mbc → r.body = some b))
  ∧ (∀ (sha : Str → Str) (now : Nat) (arts : List CsvArticle) (a : InsertArgs) (b : Str),
        a.body = some b →
        canonicalize_url a.url ∉ csvCanonicals arts →
        ∃ r, (csvInsertA sha now arts a).2 = arts ++ [r]
          ∧ (MAX_BODY_CHARS_CSV < b.length →
              r.body = b.take MAX_BODY_CHARS_CSV
                ∧ (b.take MAX_BODY_CHARS_CSV).length = MAX_BODY_CHARS_CSV)
          ∧ (b.length ≤ MAX_BODY_CHARS_CSV → r.body = b)) := by
  constructor
  · intro sha mbc now s a b hbody habs
    have h1 : insertA sha mbc now s a = _ :=
      insert_article_fresh sha mbc now s a.feed_id a.outlet a.url a.title a.summary
        a.published_at a.author a.html_sha256 a.html_path a.body habs
    refine ⟨_, by rw [h1], ?_, ?_⟩
    · intro hlong
      constructor
      · simp only [truncBody, hbody, capBody, if_pos hlong]
      · rw [List.length_take]
        omega
    · intro hshort
      have hnl : ¬ mbc < b.length := by omega
      simp only [truncBody, hbody, capBody, if_neg hnl]
  · intro sha now arts a b hbody habs
    have h1 : csvInsertA sha now arts a = _ :=
      csv_insert_article_fresh sha now arts a.feed_id a.outlet a.url a.title a.summary
        (a.published_at.map (fun _ => [])) a.author a.html_sha256 a.html_path a.body habs
    refine ⟨_, by rw [h1], ?_, ?_⟩
    · intro hlong
      constructor
      · simp only [truncBody, hbody, capBody, if_pos hlong, Option.getD_some]
      · rw [List.length_take]
        omega
    · intro hshort
      have hnl : ¬ MAX_BODY_CHARS_CSV < b.length := by omega
      simp only [truncBody, hbody, capBody, if_neg hnl, Option.getD_some]

/-- Claim C8 (witness): with the cap configured to 2, the body
`"xyz"` is stored as exactly `"xy"`. -/
theorem body_truncated_to_max_chars_witness :
    ∃ r, (insertA (fun _ => []) 2 0 ⟨[], []⟩
        ⟨1, [], ['u'], [], [], none, none, none, none, some ['x', 'y', 'z']⟩).2.articles
        = ([] : List Article) ++ [r]
      ∧ (2 < (['x', 'y', 'z'] : Str).length →
          r.body = some ((['x', 'y', 'z'] : Str).take 2)
            ∧ ((['x', 'y', 'z'] : Str).take 2).length = 2)
      ∧ ((['x', 'y', 'z'] : Str).length ≤ 2 → r.body = some ['x', 'y', 'z']) :=
  body_truncated_to_max_chars.1 (fun _ => []) 2 0 ⟨[], []⟩
    ⟨1, [], ['u'], [], [], none, none, none, none, some ['x', 'y', 'z']⟩
    ['x', 'y', 'z'] rfl (by decide)


/-! ## Fallback-body theorems -/

/-- The extraction chain produced no usable body for this page: the
body component is absent or empty (both falsy in Python). -/
def chainBodyEmpty (pd : PageData) : Prop :=
  (extract_body pd.traf pd.goo).2 = none ∨ (extract_body pd.traf pd.goo).2 = some []

theorem capBody_eq_nil_iff {mbc : Nat} (hm : 0 < mbc) (x : Str) :
    capBody mbc x = [] ↔ x = [] := by
  unfold capBody
  by_cases hc : mbc < x.length
  · rw [if_pos hc]
    constructor
    · intro ht
      have hlen := congrArg List.length ht
      rw [List.length_take] at hlen
      simp only [List.length_nil] at hlen
      omega
    · intro hx
      subst hx
      simp at hc
  · rw [if_neg hc]

theorem pyOrStr_eq_nil_iff (a b : Str) : pyOrStr a b = [] ↔ a = [] ∧ b = [] := by
  unfold pyOrStr
  by_cases ha : a ≠ []
  · rw [if_pos ha]
    constructor
    · intro h
      exact absurd h ha
    · rintro ⟨h1, _⟩
      exact absurd h1 ha
  · rw [if_neg ha]
    push_neg at ha
    constructor
    · intro hb
      exact ⟨ha, hb⟩
    · rintro ⟨_, hb⟩
      exact hb

theorem fallback_body_cases (mbc : Nat) (hm : 0 < mbc) (X2 : Option Str) (SM TI : Str) :
    (∀ b, X2 = some b → b ≠ [] →
        capBody mbc (fallbackBody X2 SM TI) = capBody mbc b)
  ∧ ((X2 = none ∨ X2 = some []) → SM ≠ [] →
        capBody mbc (fallbackBody X2 SM TI) = capBody mbc SM)
  ∧ ((X2 = none ∨ X2 = some []) → SM = [] →
        capBody mbc (fallbackBody X2 SM TI) = capBody mbc TI)
  ∧ (capBody mbc (fallbackBody X2 SM TI) = [] ↔
        (X2 = none ∨ X2 = some []) ∧ SM = [] ∧ TI = []) := by
  cases X2 with
  | none =>
    have hfb : fallbackBody none SM TI = pyOrStr SM TI := rfl
    refine ⟨?_, ?_, ?_, ?_⟩
    · intro b h
      exact absurd h (by simp)
    · intro _ hs
      rw [hfb]
      unfold pyOrStr
      rw [if_pos hs]
    · intro _ hs
      rw [hfb]
      unfold pyOrStr
      rw [if_neg (by simpa using hs)]
    · rw [hfb, capBody_eq_nil_iff hm, pyOrStr_eq_nil_iff]
      constructor
      · rintro ⟨h1, h2⟩
        exact ⟨Or.inl rfl, h1, h2⟩
      · rintro ⟨_, h1, h2⟩
        exact ⟨h1, h2⟩
  | some b0 =>
    by_cases hb0 : b0 = []
    · subst hb0
      have hfb : fallbackBody (some []) SM TI = pyOrStr SM TI := rfl
      refine ⟨?_, ?_, ?_, ?_⟩
      · intro b h hbne
        exact absurd (Option.some.inj h).symm hbne
      · intro _ hs
        rw [hfb]
        unfold pyOrStr
        rw [if_pos hs]
      · intro _ hs
        rw [hfb]
        unfold pyOrStr
        rw [if_neg (by simpa using hs)]
      · rw [hfb, capBody_eq_nil_iff hm, pyOrStr_eq_nil_iff]
        constructor
        · rintro ⟨h1, h2⟩
          exact ⟨Or.inr rfl, h1, h2⟩
        · rintro ⟨_, h1, h2⟩
          exact ⟨h1, h2⟩
    · have hfb : fallbackBody (some b0) SM TI = b0 := by
        show (if b0 = [] then pyOrStr SM TI else b0) = b0
        rw [if_neg hb0]
      refine ⟨?_, ?_, ?_, ?_⟩
      · intro b h _
        have hb : b = b0 := (Option.some.inj h).symm
        subst hb
        rw [hfb]
      · intro hdisj
        rcases hdisj with h | h
        · exact absurd h (by simp)
        · exact absurd (Option.some.inj h) hb0
      · intro hdisj
        rcases hdisj with h | h
        · exact absurd h (by simp)
        · exact absurd (Option.some.inj h) hb0
      · rw [hfb, capBody_eq_nil_iff hm]
        constructor
        · intro h
          exact absurd h hb0
        · rintro ⟨hdisj, _⟩
          rcases hdisj with h | h
          · exact absurd h (by simp)
          · exact absurd (Option.some.inj h) hb0

theorem processEntry_eq (sha : Str → Str) (mbc now : Nat) (feed : Feed) (ew : EntryWorld)
    (s : RepoState) (link : Str) (pd : PageData)
    (hlink : entryLink ew.entry = some link) (hpage : ew.page = some pd) :
    processEntry sha mbc now feed ew s =
      (Repo.insert_article sha mbc now s feed.id feed.outlet link
        (finalTitleOf (extract_body pd.traf pd.goo).1 (entryTitle ew.entry))
        (guess_lead (pyOrStr (fallbackBody (extract_body pd.traf pd.goo).2
            (entrySummary ew.entry) (entryTitle ew.entry))
          (pyOrStr (entrySummary ew.entry)
            (finalTitleOf (extract_body pd.traf pd.goo).1 (entryTitle ew.entry)))))
        (resolvePublished ew.entry) (entryAuthor ew.entry)
        (some pd.htmlSha) (some pd.htmlPath)
        (some (fallbackBody (extract_body pd.traf pd.goo).2
            (entrySummary ew.entry) (entryTitle ew.entry)))).2 := by
  unfold processEntry
  rw [hlink, hpage]

theorem insert_article_row (sha : Str → Str) (mbc now : Nat) (s : RepoState)
    (fid : Nat) (o url t sm : Str) (p : Option Nat) (au hs hp : Option Str)
    (b : Option Str) (habs : canonicalize_url url ∉ canonicals s) :
    ∃ r, (Repo.insert_article sha mbc now s fid o url t sm p au hs hp b).2.articles
        = s.articles ++ [r] ∧ r.body = truncBody mbc b :=
  ⟨_, by rw [insert_article_fresh sha mbc now s fid o url t sm p au hs hp b habs], rfl⟩

/-- Claim C5: for a processed entry (link present, page fetched, not a
duplicate, positive body cap), the persisted row's body is: the chain's
body when that is non-empty; otherwise the feed summary if non-empty;
otherwise the feed title — and the stored body is empty exactly when
the chain yielded no body AND summary AND title are all empty, in which
case the article row is still created (with an empty body). -/
theorem fallback_body_priority :
    ∀ (sha : Str → Str) (mbc now : Nat) (feed : Feed) (ew : EntryWorld) (s : RepoState)
      (link : Str) (pd : PageData),
      entryLink ew.entry = some link →
      ew.page = some pd →
      canonicalize_url link ∉ canonicals s →
      0 < mbc →
      ∃ r, (processEntry sha mbc now feed ew s).articles = s.articles ++ [r]
        ∧ (∀ b, (extract_body pd.traf pd.goo).2 = some b → b ≠ [] →
            r.body = some (capBody mbc b))
        ∧ (chainBodyEmpty pd → entrySummary ew.entry ≠ [] →
            r.body = some (capBody mbc (entrySummary ew.entry)))
        ∧ (chainBodyEmpty pd → entrySummary ew.entry = [] →
            r.body = some (capBody mbc (entryTitle ew.entry)))
        ∧ (r.body = some [] ↔
            chainBodyEmpty pd ∧ entrySummary ew.entry = [] ∧ entryTitle ew.entry = []) := by
  intro sha mbc now feed ew s link pd hlink hpage habs hm
  rw [processEntry_eq sha mbc now feed ew s link pd hlink hpage]
  obtain ⟨r, hr, hrbody⟩ := insert_article_row sha mbc now s feed.id feed.outlet link
    (finalTitleOf (extract_body pd.traf pd.goo).1 (entryTitle ew.entry))
    (guess_lead (pyOrStr (fallbackBody (extract_body pd.traf pd.goo).2
        (entrySummary ew.entry) (entryTitle ew.entry))
      (pyOrStr (entrySummary ew.entry)
        (finalTitleOf (extract_body pd.traf pd.goo).1 (entryTitle ew.entry)))))
    (resolvePublished ew.entry) (entryAuthor ew.entry)
    (some pd.htmlSha) (some pd.htmlPath)
    (some (fallbackBody (extract_body pd.traf pd.goo).2
        (entrySummary ew.entry) (entryTitle ew.entry))) habs
  simp only [truncBody] at hrbody
  obtain ⟨hc1, hc2, hc3, hc4⟩ := fallback_body_cases mbc hm (extract_body pd.traf pd.goo).2
    (entrySummary ew.entry) (entryTitle ew.entry)
  refine ⟨r, hr, ?_, ?_, ?_, ?_⟩
  · intro b hb hbne
    rw [hrbody, hc1 b hb hbne]
  · intro hce hs
    rw [hrbody, hc2 hce hs]
  · intro hce hs
    rw [hrbody, hc3 hce hs]
  · rw [hrbody]
    unfold chainBodyEmpty
    constructor
    · intro h
      have : capBody mbc (fallbackBody (extract_body pd.traf pd.goo).2
          (entrySummary ew.entry) (entryTitle ew.entry)) = [] := by
        injection h with h
      exact hc4.mp this
    · intro h
      rw [hc4.mpr h]

/-- Claim C5 (witness): an entry whose page yields nothing from any
extractor and whose feed entry has no summary and no title is still
persisted, with an empty body. -/
theorem fallback_body_priority_witness :
    ∃ r, (processEntry (fun _ => []) 5 0 ⟨1, [], [], true, none, none, none⟩
        ⟨⟨some ['u'], none, none, none, none, none, none⟩,
          some ⟨[], [], .ok none, .ok ⟨none, none⟩⟩⟩ ⟨[], []⟩).articles
        = ([] : List Article) ++ [r]
      ∧ (∀ b, (extract_body (.ok none) (.ok ⟨none, none⟩)).2 = some b → b ≠ [] →
          r.body = some (capBody 5 b))
      ∧ (chainBodyEmpty ⟨[], [], .ok none, .ok ⟨none, none⟩⟩ →
          entrySummary ⟨some ['u'], none, none, none, none, none, none⟩ ≠ [] →
          r.body = some (capBody 5 (entrySummary ⟨some ['u'], none, none, none, none, none, none⟩)))
      ∧ (chainBodyEmpty ⟨[], [], .ok none, .ok ⟨none, none⟩⟩ →
          entrySummary ⟨some ['u'], none, none, none, none, none, none⟩ = [] →
          r.body = some (capBody 5 (entryTitle ⟨some ['u'], none, none, none, none, none, none⟩)))
      ∧ (r.body = some [] ↔
          chainBodyEmpty ⟨[], [], .ok none, .ok ⟨none, none⟩⟩
            ∧ entrySummary ⟨some ['u'], none, none, none, none, none, none⟩ = []
            ∧ entryTitle ⟨some ['u'], none, none, none, none, none, none⟩ = []) :=
  fallback_body_priority (fun _ => []) 5 0 ⟨1, [], [], true, none, none, none⟩
    ⟨⟨some ['u'], none, none, none, none, none, none⟩,
      some ⟨[], [], .ok none, .ok ⟨none, none⟩⟩⟩ ⟨[], []⟩ ['u']
    ⟨[], [], .ok none, .ok ⟨none, none⟩⟩ rfl rfl (by decide) (by decide)

end RssCollector
